import Mathlib

/-!
Shallow embedding of the chat-mode handoff core of `src/api/index.py`
(a LINE webhook bot with an automated/human handoff state machine).

Modelling conventions:
- The Supabase `chat_states` table is a list of rows (`ChatTable`); the
  store guarantees at most one row per `user_id`, stated as a `Nodup`
  hypothesis where a proof needs it.
- Timestamps (`datetime.now(timezone.utc)` / ISO strings, compared
  lexicographically = chronologically) are modelled as `Int` seconds.
- Network calls to external collaborators (the Supabase fetch, the LLM
  completion, the LINE reply send) are modelled by `Except Unit _`
  parameters: `.error ()` is a raised exception, `.ok v` a successful
  return of `v`.
- Python's mode values are the exact strings of the code: `"ai"` (the
  automated mode) and `"human"`.
-/

/-- One row of the `chat_states` table. `mode` is `Option String` because a
stored row's `mode` field may be absent (Python `dict.get("mode", "ai")`);
`last_human_reply_at` is absent when the user was never in human mode. -/
structure ChatRow where
  user_id : String
  mode : Option String
  last_human_reply_at : Option Int
deriving Repr, DecidableEq

/-- The `chat_states` table: a list of rows. -/
abbrev ChatTable := List ChatRow

/-- The rows returned by
`supabase.table("chat_states").select("mode").eq("user_id", uid).execute()`. -/
def selectMode (tbl : ChatTable) (uid : String) : List ChatRow :=
  tbl.filter (fun r => r.user_id = uid)

/-- Embedding of `get_chat_mode` (src/api/index.py lines 41-59). The
argument is the outcome of the store fetch: `.error ()` when the Supabase
call raises, `.ok rows` when it returns `response.data = rows` (which is
`selectMode tbl uid` on a healthy store). The Python function catches every
exception and returns a string in all cases, so the embedding is total. -/
def get_chat_mode (fetch : Except Unit (List ChatRow)) : String :=
  match fetch with
  | .error _ => "ai"
  | .ok rows =>
    match rows with
    | [] => "ai"
    | r :: _ => r.mode.getD "ai"

/-- Embedding of `handle_user_query` (lines 63-92). Everything inside its
`try` block (numeral conversion, the `cars` query, formatting, the OpenAI
completion, `.strip()`) is an external collaborator per the spec; the
argument is that block's outcome: `.ok s` when it returns the string `s`
(including the canned no-match answer), `.error ()` when any step raises.
The `except` clause returns the apology fallback. -/
def handle_user_query (internals : Except Unit String) : String :=
  match internals with
  | .ok s => s
  | .error _ => "The system encountered a problem, please try again later."

/-- The fields `process_text_message` extracts from a LINE text-message
event: `event.source.user_id`, `event.message.text`, `event.reply_token`. -/
structure TextEvent where
  user_id : String
  text : String
  reply_token : String
deriving Repr, DecidableEq

/-- Observable outcome of one background dispatch: whether
`handle_user_query` was invoked, the list of `reply_message` calls made
(reply token, text), and whether the coroutine returned normally (`.ok ()`)
or an exception escaped it (`.error ()`). -/
structure DispatchOutcome where
  responderInvoked : Bool
  sends : List (String × String)
  result : Except Unit Unit
deriving Repr

/-- Embedding of `process_text_message` (lines 138-158). `fetch` is the
store read performed by `get_chat_mode`; `internals` the responder
internals passed through to `handle_user_query`; `sendResult` the outcome
of the `line_bot_api.reply_message` call. The mode check compares against
the literal `'human'`; in the non-human branch the reply call is made with
the event's reply token and is NOT wrapped in any `try`, so its exception
becomes the coroutine's outcome. -/
def process_text_message (fetch : Except Unit (List ChatRow))
    (internals : Except Unit String) (sendResult : Except Unit Unit)
    (ev : TextEvent) : DispatchOutcome :=
  let current_mode := get_chat_mode fetch
  if current_mode = "human" then
    { responderInvoked := false, sends := [], result := .ok () }
  else
    let reply_text := handle_user_query internals
    { responderInvoked := true
      sends := [(ev.reply_token, reply_text)]
      result := sendResult }

/-- Claim C1: for every dispatched text-message event whose user's mode
resolves to `human`, `process_text_message` returns without invoking
`handle_user_query` and without sending any outbound reply. -/
theorem human_mode_silent_drop (fetch : Except Unit (List ChatRow))
    (internals : Except Unit String) (sendResult : Except Unit Unit)
    (ev : TextEvent) (h : get_chat_mode fetch = "human") :
    process_text_message fetch internals sendResult ev =
      { responderInvoked := false, sends := [], result := .ok () } := by
  simp [process_text_message, h]

/-- Witness for C1: a concrete stored row in human mode is silently
dropped. -/
theorem human_mode_silent_drop_witness :
    process_text_message (.ok [⟨"U1", some "human", some 0⟩]) (.ok "answer")
        (.ok ()) ⟨"U1", "hi", "tok1"⟩ =
      { responderInvoked := false, sends := [], result := .ok () } :=
  human_mode_silent_drop (.ok [⟨"U1", some "human", some 0⟩]) (.ok "answer")
    (.ok ()) ⟨"U1", "hi", "tok1"⟩ (by decide)

/-- Claim C2: `get_chat_mode` returns the automated mode `"ai"` when no
row exists for the user, when the stored mode field is absent, and when the
store lookup raises; being a total function into `String`, it never raises
to its caller. -/
theorem get_chat_mode_defaults_ai :
    (∀ tbl uid, (∀ r ∈ tbl, r.user_id ≠ uid) →
        get_chat_mode (.ok (selectMode tbl uid)) = "ai") ∧
    get_chat_mode (.error ()) = "ai" ∧
    (∀ r rest, r.mode = none → get_chat_mode (.ok (r :: rest)) = "ai") := by
  refine ⟨fun tbl uid h => ?_, rfl, fun r rest hr => ?_⟩
  · have hsel : selectMode tbl uid = [] := by
      simp only [selectMode, List.filter_eq_nil_iff]
      intro r hrmem
      simpa using h r hrmem
    rw [hsel]
    rfl
  · simp [get_chat_mode, hr]

/-- Witness for C2: a table holding only some other user's row resolves to
`"ai"` for an absent user. -/
theorem get_chat_mode_defaults_ai_witness :
    get_chat_mode (.ok (selectMode [⟨"U2", some "human", some 5⟩] "U1")) = "ai" :=
  get_chat_mode_defaults_ai.1 [⟨"U2", some "human", some 5⟩] "U1" (by decide)

/-- An HTTP error response raised by `HTTPException(status_code, detail)`. -/
structure HTTPError where
  status_code : Nat
  detail : String
deriving Repr, DecidableEq

/-- Embedding of `get_admin_key` (lines 33-37): `header` is
`request.headers.get("X-Admin-API-Key")` (`none` when the header is
missing), `secret` is `ADMIN_SECRET_KEY`. Python compares `api_key` (a
`str` or `None`) with `!=` against the secret string, so the check passes
exactly when the header is present and equal to the secret. -/
def get_admin_key (header : Option String) (secret : String) :
    Except HTTPError String :=
  if header = some secret then .ok secret
  else .error ⟨403, "Forbidden: Invalid Admin API Key"⟩

/-- The JSON body of `/admin/switch_mode` as the endpoint reads it:
`data.get("user_id")` and `data.get("mode")`, each possibly absent. -/
structure SwitchBody where
  user_id : Option String
  mode : Option String
deriving Repr, DecidableEq

/-- The success payload of `/admin/switch_mode`:
`{"status": "success", "user_id": ..., "new_mode": ...}`. -/
structure SwitchResp where
  user_id : String
  new_mode : String
deriving Repr, DecidableEq

/-- Embedding of the Supabase upsert
`supabase.table("chat_states").upsert(update_data)` keyed on `user_id`:
columns present in the payload are written, columns absent from the payload
(`last_human_reply_at` when `mode != "human"`) keep their stored value on a
conflicting row; when no row conflicts, the payload is inserted as a new
row with absent columns null. `payloadColumn` is the written value of an
optional payload column on a conflicting row; `upsertRowUpdate` is the
per-row write applied to a conflicting row. -/
def payloadColumn (l old : Option Int) : Option Int :=
  match l with
  | some t => some t
  | none => old

/-- The per-row write of the upsert on a conflicting row. -/
def upsertRowUpdate (uid : String) (mode : String) (lhra : Option Int)
    (r : ChatRow) : ChatRow :=
  if r.user_id = uid then
    { r with
      mode := some mode
      last_human_reply_at := payloadColumn lhra r.last_human_reply_at }
  else r

/-- The upsert itself: update conflicting rows, or insert a fresh row. -/
def upsert (tbl : ChatTable) (uid : String) (mode : String)
    (lhra : Option Int) : ChatTable :=
  if tbl.any (fun r => r.user_id = uid) then
    tbl.map (upsertRowUpdate uid mode lhra)
  else
    tbl ++ [{ user_id := uid, mode := some mode, last_human_reply_at := lhra }]

/-- Embedding of the `/admin/switch_mode` endpoint `switch_chat_mode`
(lines 160-180). The `Depends(get_admin_key)` dependency runs before the
endpoint body, so an invalid key rejects before the body is parsed or the
store touched. `body` is the parsed JSON (`none` when `request.json()`
raises, which FastAPI surfaces as a 500); `now` is
`datetime.now(timezone.utc)`. Returns the HTTP outcome together with the
resulting table. -/
def switch_chat_mode (header : Option String) (secret : String)
    (body : Option SwitchBody) (now : Int) (tbl : ChatTable) :
    Except HTTPError SwitchResp × ChatTable :=
  match get_admin_key header secret with
  | .error e => (.error e, tbl)
  | .ok _ =>
    match body with
    | none => (.error ⟨500, "Internal Server Error"⟩, tbl)
    | some data =>
      match data.user_id, data.mode with
      | some u, some m =>
        if u = "" ∨ (m ≠ "ai" ∧ m ≠ "human") then
          (.error ⟨400, "Invalid request body."⟩, tbl)
        else
          (.ok ⟨u, m⟩,
           upsert tbl u m (if m = "human" then some now else none))
      | _, _ => (.error ⟨400, "Invalid request body."⟩, tbl)

/-- The timeout of `/admin/revert_to_ai`: `timeout_minutes = 2`. -/
def timeout_minutes : Int := 2

/-- The filter of `/admin/revert_to_ai`:
`.eq("mode", "human").lt("last_human_reply_at", threshold)`. A SQL `lt`
against a null `last_human_reply_at` matches nothing. -/
def staleHuman (threshold : Int) (r : ChatRow) : Bool :=
  decide (r.mode = some "human") &&
    match r.last_human_reply_at with
    | some t => decide (t < threshold)
    | none => false

/-- The success payload of `/admin/revert_to_ai` (the zero-match early
return carries count 0 and no users). -/
structure RevertResp where
  reverted_count : Nat
  reverted_users : List String
deriving Repr, DecidableEq

/-- Embedding of the `/admin/revert_to_ai` endpoint
`revert_inactive_chats_to_ai` (lines 182-202): select the user ids of rows
in human mode whose `last_human_reply_at` is older than `now` minus the
2-minute timeout, then batch-update those ids to `mode = "ai"` (the update
touches only the `mode` column). -/
def revert_inactive_chats_to_ai (header : Option String) (secret : String)
    (now : Int) (tbl : ChatTable) :
    Except HTTPError RevertResp × ChatTable :=
  match get_admin_key header secret with
  | .error e => (.error e, tbl)
  | .ok _ =>
    let revert_time_threshold := now - timeout_minutes * 60
    let users_to_revert :=
      (tbl.filter (staleHuman revert_time_threshold)).map (fun r => r.user_id)
    if users_to_revert.isEmpty then
      (.ok ⟨0, []⟩, tbl)
    else
      (.ok ⟨users_to_revert.length, users_to_revert⟩,
       tbl.map (fun r =>
         if r.user_id ∈ users_to_revert then { r with mode := some "ai" }
         else r))

/-- An event parsed by the LINE webhook parser: a text message (a
`MessageEvent` carrying `TextMessageContent`) or anything else. -/
inductive LineEvent
  | textMessage (ev : TextEvent)
  | other
deriving Repr, DecidableEq

/-- The dispatch guard of `line_webhook`:
`isinstance(event, MessageEvent) and isinstance(event.message, TextMessageContent)`. -/
def isTextMessageEvent : LineEvent → Bool
  | .textMessage _ => true
  | .other => false

/-- Outcome of one `/api/webhook` request: the HTTP response and the list
of events handed to `background_tasks.add_task(process_text_message, ·)`. -/
structure WebhookOutcome where
  response : Except HTTPError String
  scheduled : List LineEvent
deriving Repr

/-- Embedding of the `/api/webhook` endpoint `line_webhook` (lines
204-222). `signature` is the `X-Line-Signature` header (`none` when
missing; Python's `if not signature` also rejects an empty header value);
`parse` is the outcome of `parser.parse(body, signature)`: `.error ()`
when it raises `InvalidSignatureError`, `.ok events` otherwise. -/
def line_webhook (signature : Option String)
    (parse : Except Unit (List LineEvent)) : WebhookOutcome :=
  match signature with
  | none => ⟨.error ⟨400, "X-Line-Signature header is missing"⟩, []⟩
  | some s =>
    if s = "" then ⟨.error ⟨400, "X-Line-Signature header is missing"⟩, []⟩
    else
      match parse with
      | .error _ => ⟨.error ⟨400, "Invalid signature"⟩, []⟩
      | .ok events => ⟨.ok "OK", events.filter isTextMessageEvent⟩

/-- Claim C8: a request with a missing signature header is rejected with a
400 and schedules nothing; a request whose signature fails verification is
rejected with a 400 and schedules nothing; otherwise the fixed body `"OK"`
is returned and one background task is scheduled per text-message event. -/
theorem line_webhook_spec (parse : Except Unit (List LineEvent)) :
    (line_webhook none parse =
      ⟨.error ⟨400, "X-Line-Signature header is missing"⟩, []⟩) ∧
    (∀ s, s ≠ "" → parse = .error () →
      line_webhook (some s) parse = ⟨.error ⟨400, "Invalid signature"⟩, []⟩) ∧
    (∀ s events, s ≠ "" → parse = .ok events →
      line_webhook (some s) parse =
        ⟨.ok "OK", events.filter isTextMessageEvent⟩) := by
  refine ⟨rfl, fun s hs hp => ?_, fun s events hs hp => ?_⟩
  · subst hp
    simp [line_webhook, hs]
  · subst hp
    simp [line_webhook, hs]

/-- Witness for C8: a verified request with one text event and one other
event schedules exactly the text event and returns `"OK"`. -/
theorem line_webhook_spec_witness :
    line_webhook (some "sig")
        (.ok [.textMessage ⟨"U1", "hi", "tok1"⟩, .other]) =
      ⟨.ok "OK", [.textMessage ⟨"U1", "hi", "tok1"⟩]⟩ :=
  (line_webhook_spec (.ok [.textMessage ⟨"U1", "hi", "tok1"⟩, .other])).2.2
    "sig" [.textMessage ⟨"U1", "hi", "tok1"⟩, .other] (by decide) rfl

/-- Claim C9: any request to either admin endpoint whose
`X-Admin-API-Key` header is missing or differs from `ADMIN_SECRET_KEY` is
rejected with a 403 and the table is left untouched, for every request
body (even an unparseable one). -/
theorem admin_endpoints_reject_bad_key (header : Option String)
    (secret : String) (body : Option SwitchBody) (now : Int)
    (tbl : ChatTable) (h : header ≠ some secret) :
    switch_chat_mode header secret body now tbl =
        (.error ⟨403, "Forbidden: Invalid Admin API Key"⟩, tbl) ∧
    revert_inactive_chats_to_ai header secret now tbl =
        (.error ⟨403, "Forbidden: Invalid Admin API Key"⟩, tbl) := by
  constructor
  · simp [switch_chat_mode, get_admin_key, h]
  · simp [revert_inactive_chats_to_ai, get_admin_key, h]

/-- Witness for C9: a wrong key with a well-formed body is rejected and
the table is unchanged. -/
theorem admin_endpoints_reject_bad_key_witness :
    switch_chat_mode (some "wrong") "secret"
        (some ⟨some "U1", some "human"⟩) 100 [] =
      (.error ⟨403, "Forbidden: Invalid Admin API Key"⟩, []) :=
  (admin_endpoints_reject_bad_key (some "wrong") "secret"
    (some ⟨some "U1", some "human"⟩) 100 [] (by decide)).1

theorem upsertRowUpdate_user_id (uid mode : String) (lhra : Option Int)
    (r : ChatRow) :
    (upsertRowUpdate uid mode lhra r).user_id = r.user_id := by
  unfold upsertRowUpdate
  split <;> rfl

theorem upsertRowUpdate_idem (uid mode : String) (lhra : Option Int)
    (r : ChatRow) :
    upsertRowUpdate uid mode lhra (upsertRowUpdate uid mode lhra r) =
      upsertRowUpdate uid mode lhra r := by
  by_cases h : r.user_id = uid
  · simp only [upsertRowUpdate, h, if_true, if_pos]
    cases lhra <;> simp [payloadColumn]
  · simp [upsertRowUpdate, h]

theorem upsertRowUpdate_of_ne (uid mode : String) (lhra : Option Int)
    (r : ChatRow) (h : r.user_id ≠ uid) :
    upsertRowUpdate uid mode lhra r = r := by
  simp [upsertRowUpdate, h]

theorem upsert_idem (tbl : ChatTable) (uid mode : String) (lhra : Option Int) :
    upsert (upsert tbl uid mode lhra) uid mode lhra =
      upsert tbl uid mode lhra := by
  by_cases h : (tbl.any fun r => decide (r.user_id = uid)) = true
  · unfold upsert
    rw [if_pos h]
    have h2 : ((tbl.map (upsertRowUpdate uid mode lhra)).any
        fun r => decide (r.user_id = uid)) = true := by
      simpa [List.any_map, Function.comp, upsertRowUpdate_user_id] using h
    rw [if_pos h2, List.map_map]
    apply List.map_congr_left
    intro a _
    exact upsertRowUpdate_idem uid mode lhra a
  · unfold upsert
    rw [if_neg h]
    have h3 : ∀ r ∈ tbl, r.user_id ≠ uid := by
      simpa [List.any_eq_true] using h
    have h2 : (((tbl ++ [⟨uid, some mode, lhra⟩]) : ChatTable).any
        fun r => decide (r.user_id = uid)) = true := by
      simp
    rw [if_pos h2, List.map_append]
    have hmap : tbl.map (upsertRowUpdate uid mode lhra) = tbl := by
      conv_rhs => rw [← List.map_id tbl]
      apply List.map_congr_left
      intro a ha
      simpa using upsertRowUpdate_of_ne uid mode lhra a (h3 a ha)
    have hnew : upsertRowUpdate uid mode lhra ⟨uid, some mode, lhra⟩ =
        ⟨uid, some mode, lhra⟩ := by
      cases lhra <;> simp [upsertRowUpdate, payloadColumn]
    rw [hmap]
    simp [hnew]

/-- Claim C3: `switch_chat_mode` is idempotent — for every user id and
valid mode (and any key header and any prior table), running the endpoint
twice with identical arguments (the same request at the same clock time)
yields the same response and leaves the same stored table as running it
once. -/
theorem switch_mode_idempotent (header : Option String)
    (secret u m : String) (now : Int) (tbl : ChatTable)
    (hm : m = "ai" ∨ m = "human") (hu : u ≠ "") :
    switch_chat_mode header secret (some ⟨some u, some m⟩) now
        (switch_chat_mode header secret (some ⟨some u, some m⟩) now tbl).2 =
      switch_chat_mode header secret (some ⟨some u, some m⟩) now tbl := by
  have hvalid : ¬(u = "" ∨ (m ≠ "ai" ∧ m ≠ "human")) := by
    rcases hm with h | h <;> simp [h, hu]
  cases hE : get_admin_key header secret with
  | error e => simp [switch_chat_mode, hE]
  | ok k =>
    simp only [switch_chat_mode, hE]
    rw [if_neg hvalid, if_neg hvalid]
    simp [upsert_idem]

/-- Witness for C3: switching user `U1` to human twice at time 100 equals
switching once. -/
theorem switch_mode_idempotent_witness :
    switch_chat_mode (some "secret") "secret"
        (some ⟨some "U1", some "human"⟩) 100
        (switch_chat_mode (some "secret") "secret"
          (some ⟨some "U1", some "human"⟩) 100 []).2 =
      switch_chat_mode (some "secret") "secret"
        (some ⟨some "U1", some "human"⟩) 100 [] :=
  switch_mode_idempotent (some "secret") "secret" "U1" "human" 100 []
    (Or.inr rfl) (by decide)

theorem mem_stale_ids_iff (tbl : ChatTable) (th : Int)
    (hnodup : (tbl.map (fun r => r.user_id)).Nodup)
    (r : ChatRow) (hr : r ∈ tbl) :
    r.user_id ∈ (tbl.filter (staleHuman th)).map (fun r2 => r2.user_id) ↔
      staleHuman th r = true := by
  constructor
  · intro hmem
    rcases List.mem_map.1 hmem with ⟨r2, hr2mem, heq⟩
    rcases List.mem_filter.1 hr2mem with ⟨hr2tbl, hr2stale⟩
    have hr2r : r2 = r := List.inj_on_of_nodup_map hnodup hr2tbl hr heq
    rw [← hr2r]
    exact hr2stale
  · intro hst
    exact List.mem_map.2 ⟨r, List.mem_filter.2 ⟨hr, hst⟩, rfl⟩

/-- Claim C5: on a table with at most one row per user, the revert
endpoint (with a valid key) rewrites exactly the rows that are in human
mode with `last_human_reply_at` older than now minus the 2-minute timeout,
setting their mode to `"ai"` and touching nothing else, and it returns the
count and user ids of exactly those rows. -/
theorem revert_stale_sessions_spec (header : Option String)
    (secret : String) (now : Int) (tbl : ChatTable)
    (hkey : header = some secret)
    (hnodup : (tbl.map (fun r => r.user_id)).Nodup) :
    revert_inactive_chats_to_ai header secret now tbl =
      (.ok ⟨(tbl.filter (staleHuman (now - timeout_minutes * 60))).length,
            (tbl.filter (staleHuman (now - timeout_minutes * 60))).map
              (fun r => r.user_id)⟩,
       tbl.map (fun r =>
         if staleHuman (now - timeout_minutes * 60) r then
           { r with mode := some "ai" }
         else r)) := by
  subst hkey
  simp only [revert_inactive_chats_to_ai, get_admin_key, if_pos rfl]
  by_cases hempty : ((tbl.filter (staleHuman (now - timeout_minutes * 60))).map
      (fun r => r.user_id)).isEmpty = true
  · have hfil : tbl.filter (staleHuman (now - timeout_minutes * 60)) = [] := by
      have := List.isEmpty_iff.1 hempty
      exact List.map_eq_nil_iff.1 this
    rw [if_pos hempty]
    rw [hfil]
    have hmap : tbl.map (fun r =>
        if staleHuman (now - timeout_minutes * 60) r then
          { r with mode := some "ai" }
        else r) = tbl := by
      conv_rhs => rw [← List.map_id tbl]
      apply List.map_congr_left
      intro a ha
      have hfa : staleHuman (now - timeout_minutes * 60) a = false := by
        have := List.filter_eq_nil_iff.1 hfil a ha
        simpa using this
      simp [hfa]
    rw [hmap]
    rfl
  · rw [if_neg hempty]
    refine Prod.ext ?_ ?_
    · simp
    · simp only
      apply List.map_congr_left
      intro a ha
      by_cases hst : staleHuman (now - timeout_minutes * 60) a = true
      · rw [if_pos ((mem_stale_ids_iff tbl _ hnodup a ha).2 hst), if_pos hst]
      · have hst2 : staleHuman (now - timeout_minutes * 60) a = false := by
          simpa using hst
        rw [if_neg (fun hmem =>
          hst ((mem_stale_ids_iff tbl _ hnodup a ha).1 hmem)), hst2]
        simp

/-- Witness for C5: of three rows — a stale human, a recent human and an
automated one — only the stale human row is reverted, and it is reported. -/
theorem revert_stale_sessions_spec_witness :
    revert_inactive_chats_to_ai (some "secret") "secret" 1000
        [⟨"A", some "human", some 0⟩, ⟨"B", some "human", some 950⟩,
         ⟨"C", some "ai", some 0⟩] =
      (.ok ⟨1, ["A"]⟩,
       [⟨"A", some "ai", some 0⟩, ⟨"B", some "human", some 950⟩,
        ⟨"C", some "ai", some 0⟩]) := by
  rw [revert_stale_sessions_spec (some "secret") "secret" 1000
    [⟨"A", some "human", some 0⟩, ⟨"B", some "human", some 950⟩,
     ⟨"C", some "ai", some 0⟩] rfl (by decide)]
  rfl

/-- Counterexample to claim C4 as stated: with a user in automated mode
and a responder that succeeds, a failing `reply_message` call makes
`process_text_message` finish with an escaped exception — the reply-send
failure is not caught inside the dispatched coroutine (the code wraps no
`try` around the send). -/
theorem reply_send_failure_escapes_dispatch :
    (process_text_message (.ok [⟨"U1", some "ai", none⟩]) (.ok "answer")
        (.error ()) ⟨"U1", "hi", "tok1"⟩).result = .error () := rfl

/-- Claim C4 as amended: a failure of the Responder internals is caught
inside `handle_user_query` (whenever the reply send itself succeeds, the
dispatched task finishes normally, whatever the responder outcome), but a
failure of the outbound reply-send call is not caught and escapes the
dispatched task unchanged whenever the user is not in human mode. -/
theorem dispatch_error_containment (fetch : Except Unit (List ChatRow))
    (internals : Except Unit String) (sendResult : Except Unit Unit)
    (ev : TextEvent) :
    (sendResult = .ok () →
      (process_text_message fetch internals sendResult ev).result = .ok ()) ∧
    (get_chat_mode fetch ≠ "human" →
      (process_text_message fetch internals sendResult ev).result =
        sendResult) := by
  constructor
  · intro hs
    subst hs
    by_cases h : get_chat_mode fetch = "human" <;>
      simp [process_text_message, h]
  · intro h
    simp [process_text_message, h]

/-- Witness for amended C4: a responder failure with a successful send
finishes normally, and the concrete send failure escapes. -/
theorem dispatch_error_containment_witness :
    (process_text_message (.ok [⟨"U1", some "ai", none⟩]) (.error ())
        (.ok ()) ⟨"U1", "hi", "tok1"⟩).result = .ok () ∧
    (process_text_message (.ok [⟨"U1", some "ai", none⟩]) (.ok "answer")
        (.error ()) ⟨"U1", "hi", "tok2"⟩).result = .error () :=
  ⟨(dispatch_error_containment (.ok [⟨"U1", some "ai", none⟩]) (.error ())
      (.ok ()) ⟨"U1", "hi", "tok1"⟩).1 rfl,
   (dispatch_error_containment (.ok [⟨"U1", some "ai", none⟩]) (.ok "answer")
      (.error ()) ⟨"U1", "hi", "tok2"⟩).2 (by decide)⟩

/-- Claim C6: for a dispatched event whose user's mode resolves to the
automated mode `"ai"`, exactly one `reply_message` call is made, it uses
the event's reply token, and its text is `handle_user_query`'s output —
which is the responder's answer on success and the apology fallback when
the responder internals fail. -/
theorem automated_mode_single_reply (fetch : Except Unit (List ChatRow))
    (internals : Except Unit String) (sendResult : Except Unit Unit)
    (ev : TextEvent) (h : get_chat_mode fetch = "ai") :
    (process_text_message fetch internals sendResult ev).sends =
      [(ev.reply_token, handle_user_query internals)] ∧
    (∀ s, internals = .ok s → handle_user_query internals = s) ∧
    (internals = .error () → handle_user_query internals =
      "The system encountered a problem, please try again later.") := by
  have hne : get_chat_mode fetch ≠ "human" := by
    rw [h]
    decide
  refine ⟨?_, ?_, ?_⟩
  · simp [process_text_message, hne]
  · intro s hs
    subst hs
    rfl
  · intro hs
    subst hs
    rfl

/-- Witness for C6: a user with no stored row gets exactly one reply, on
the event's token, with the responder's answer. -/
theorem automated_mode_single_reply_witness :
    (process_text_message (.ok []) (.ok "hello") (.ok ())
        ⟨"U1", "hi", "tok1"⟩).sends = [("tok1", "hello")] :=
  (automated_mode_single_reply (.ok []) (.ok "hello") (.ok ())
    ⟨"U1", "hi", "tok1"⟩ (by decide)).1

/-- Claim C10 (implicit): any stored mode string other than the exact
literal `"human"` — including unexpected or corrupt values — is treated as
automated: the dispatcher invokes the responder and makes the reply call. -/
theorem nonhuman_stored_mode_gets_reply (uid m : String) (l : Option Int)
    (rest : List ChatRow) (internals : Except Unit String)
    (sendResult : Except Unit Unit) (ev : TextEvent) (h : m ≠ "human") :
    (process_text_message (.ok (⟨uid, some m, l⟩ :: rest)) internals
        sendResult ev).responderInvoked = true ∧
    (process_text_message (.ok (⟨uid, some m, l⟩ :: rest)) internals
        sendResult ev).sends =
      [(ev.reply_token, handle_user_query internals)] := by
  have hm : get_chat_mode (.ok (⟨uid, some m, l⟩ :: rest)) = m := rfl
  constructor <;> simp [process_text_message, hm, h]

/-- Witness for C10: the corrupt stored mode `"garbage"` still gets an
automated reply. -/
theorem nonhuman_stored_mode_gets_reply_witness :
    (process_text_message (.ok [⟨"U1", some "garbage", none⟩]) (.ok "hello")
        (.ok ()) ⟨"U1", "hi", "tok1"⟩).responderInvoked = true :=
  (nonhuman_stored_mode_gets_reply "U1" "garbage" none [] (.ok "hello")
    (.ok ()) ⟨"U1", "hi", "tok1"⟩ (by decide)).1

/-- An admin operation that writes the `chat_states` table — a
`/admin/switch_mode` or `/admin/revert_to_ai` request — together with the
wall-clock time `t` at which it runs. -/
inductive AdminOp
  | switchOp (header : Option String) (body : Option SwitchBody) (t : Int)
  | revertOp (header : Option String) (t : Int)
deriving Repr

/-- The wall-clock time of an admin operation. -/
def opTime : AdminOp → Int
  | .switchOp _ _ t => t
  | .revertOp _ t => t

/-- The table effect of one admin operation, through the endpoint
embeddings above. -/
def applyAdminOp (secret : String) : AdminOp → ChatTable → ChatTable
  | .switchOp header body t, tbl => (switch_chat_mode header secret body t tbl).2
  | .revertOp header t, tbl => (revert_inactive_chats_to_ai header secret t tbl).2

/-- Ghost log of the times at which users transitioned into human mode,
newest entry first. -/
abbrev TransLog := List (String × Int)

/-- Lookup of the most recent logged transition time of a user. -/
def glookup : TransLog → String → Option Int
  | [], _ => none
  | (k, v) :: rest, u => if k = u then some v else glookup rest u

/-- The stored mode of a user: the `mode` field of the first matching row. -/
def currentMode (tbl : ChatTable) (u : String) : Option String :=
  match tbl.find? (fun r => r.user_id = u) with
  | some r => r.mode
  | none => none

/-- Ghost instrumentation: a valid, authorized switch of a user to
`"human"` while that user is not already in human mode is a transition
into human mode and logs the operation time; every other operation leaves
the log unchanged. -/
def logTransition (secret : String) : AdminOp → ChatTable → TransLog → TransLog
  | .switchOp header (some b) t, tbl, g =>
    match b.user_id, b.mode with
    | some u, some m =>
      if header = some secret ∧ u ≠ "" ∧ m = "human" ∧
          currentMode tbl u ≠ some "human" then (u, t) :: g
      else g
    | _, _ => g
  | _, _, g => g

/-- Decidable form of the data-model invariant: every row in human mode
carries a `last_human_reply_at` at or after its logged transition time. -/
def humanModeInv (tbl : ChatTable) (g : TransLog) : Bool :=
  tbl.all fun r =>
    if r.mode = some "human" then
      match r.last_human_reply_at, glookup g r.user_id with
      | some t, some t0 => decide (t0 ≤ t)
      | _, _ => false
    else true

/-- All timestamps recorded in the table and the ghost log are at or
before the clock `c`. -/
def clockBound (tbl : ChatTable) (g : TransLog) (c : Int) : Bool :=
  (tbl.all fun r =>
    match r.last_human_reply_at with
    | some t => decide (t ≤ c)
    | none => true) &&
  g.all fun p => decide (p.2 ≤ c)

theorem humanModeInv_iff (tbl : ChatTable) (g : TransLog) :
    humanModeInv tbl g = true ↔
      ∀ r ∈ tbl, r.mode = some "human" →
        ∃ t t0, r.last_human_reply_at = some t ∧
          glookup g r.user_id = some t0 ∧ t0 ≤ t := by
  simp only [humanModeInv, List.all_eq_true]
  constructor
  · intro h r hr hm
    have hb := h r hr
    rw [if_pos hm] at hb
    cases hl : r.last_human_reply_at with
    | none =>
      rw [hl] at hb
      simp at hb
    | some t =>
      cases hg : glookup g r.user_id with
      | none =>
        rw [hl, hg] at hb
        simp at hb
      | some t0 =>
        rw [hl, hg] at hb
        exact ⟨t, t0, rfl, rfl, by simpa using hb⟩
  · intro h r hr
    by_cases hm : r.mode = some "human"
    · rw [if_pos hm]
      rcases h r hr hm with ⟨t, t0, hl, hg, hle⟩
      rw [hl, hg]
      simpa using hle
    · rw [if_neg hm]

theorem clockBound_iff (tbl : ChatTable) (g : TransLog) (c : Int) :
    clockBound tbl g c = true ↔
      (∀ r ∈ tbl, ∀ t, r.last_human_reply_at = some t → t ≤ c) ∧
      (∀ p ∈ g, p.2 ≤ c) := by
  simp only [clockBound, Bool.and_eq_true, List.all_eq_true]
  constructor
  · rintro ⟨h1, h2⟩
    refine ⟨fun r hr t hl => ?_, fun p hp => by simpa using h2 p hp⟩
    have := h1 r hr
    rw [hl] at this
    simpa using this
  · rintro ⟨h1, h2⟩
    refine ⟨fun r hr => ?_, fun p hp => by simpa using h2 p hp⟩
    cases hl : r.last_human_reply_at with
    | none => simp
    | some t => simpa using h1 r hr t hl

theorem glookup_cons_self (g : TransLog) (u : String) (t : Int) :
    glookup ((u, t) :: g) u = some t := by
  simp [glookup]

theorem glookup_cons_ne (g : TransLog) (u u2 : String) (t : Int)
    (h : u2 ≠ u) : glookup ((u, t) :: g) u2 = glookup g u2 := by
  have hne : ¬(u = u2) := fun he => h he.symm
  simp [glookup, hne]

theorem glookup_mem (g : TransLog) (u : String) (v : Int)
    (h : glookup g u = some v) : (u, v) ∈ g := by
  induction g with
  | nil => simp [glookup] at h
  | cons p rest ih =>
    rcases p with ⟨k, w⟩
    by_cases hk : k = u
    · subst hk
      rw [glookup_cons_self] at h
      cases h
      exact List.mem_cons_self _ _
    · rw [show glookup ((k, w) :: rest) u = glookup rest u from by
        simp [glookup, hk]] at h
      exact List.mem_cons_of_mem _ (ih h)

theorem currentMode_human_mem (tbl : ChatTable) (u : String)
    (h : currentMode tbl u = some "human") :
    ∃ r0 ∈ tbl, r0.user_id = u ∧ r0.mode = some "human" := by
  unfold currentMode at h
  cases hf : tbl.find? (fun r => decide (r.user_id = u)) with
  | none => rw [hf] at h; cases h
  | some r0 =>
    rw [hf] at h
    exact ⟨r0, List.mem_of_find?_eq_some hf,
      by simpa using List.find?_some hf, h⟩

theorem upsertRowUpdate_of_eq (u m : String) (l : Option Int) (r : ChatRow)
    (h : r.user_id = u) :
    upsertRowUpdate u m l r =
      { r with
        mode := some m
        last_human_reply_at := payloadColumn l r.last_human_reply_at } := by
  unfold upsertRowUpdate
  rw [if_pos h]

theorem mem_upsert_cases (tbl : ChatTable) (u m : String) (l : Option Int)
    (r2 : ChatRow) (h : r2 ∈ upsert tbl u m l) :
    (∃ r ∈ tbl, r.user_id ≠ u ∧ r2 = r) ∨
    (∃ r ∈ tbl, r.user_id = u ∧
      r2 = { r with
             mode := some m
             last_human_reply_at := payloadColumn l r.last_human_reply_at }) ∨
    (r2 = ⟨u, some m, l⟩ ∧ ∀ r ∈ tbl, r.user_id ≠ u) := by
  unfold upsert at h
  by_cases hany : (tbl.any fun r => decide (r.user_id = u)) = true
  · rw [if_pos hany] at h
    rcases List.mem_map.1 h with ⟨r, hrmem, hfr⟩
    by_cases hu : r.user_id = u
    · right
      left
      exact ⟨r, hrmem, hu, by rw [← hfr, upsertRowUpdate_of_eq u m l r hu]⟩
    · left
      exact ⟨r, hrmem, hu, by rw [← hfr, upsertRowUpdate_of_ne u m l r hu]⟩
  · rw [if_neg hany] at h
    rcases List.mem_append.1 h with hmem | hmem
    · left
      have hall : ∀ r ∈ tbl, r.user_id ≠ u := by
        simpa [List.any_eq_true] using hany
      exact ⟨r2, hmem, hall r2 hmem, rfl⟩
    · right
      right
      refine ⟨by simpa using hmem, ?_⟩
      simpa [List.any_eq_true] using hany

theorem mem_revert_cases (header : Option String) (secret : String)
    (now : Int) (tbl : ChatTable) (r2 : ChatRow)
    (h : r2 ∈ (revert_inactive_chats_to_ai header secret now tbl).2) :
    r2 ∈ tbl ∨ ∃ r ∈ tbl, r2 = { r with mode := some "ai" } := by
  unfold revert_inactive_chats_to_ai at h
  cases hE : get_admin_key header secret with
  | error e =>
    rw [hE] at h
    exact Or.inl h
  | ok k =>
    rw [hE] at h
    dsimp only at h
    split at h
    · exact Or.inl h
    · rcases List.mem_map.1 h with ⟨r, hrmem, hfr⟩
      split at hfr
      · exact Or.inr ⟨r, hrmem, hfr.symm⟩
      · exact Or.inl (hfr ▸ hrmem)

theorem clockBound_weaken (tbl : ChatTable) (g : TransLog) (c t : Int)
    (hClock : clockBound tbl g c = true) (hMono : c ≤ t) :
    clockBound tbl g t = true := by
  rw [clockBound_iff] at hClock ⊢
  exact ⟨fun r hr t2 hl => le_trans (hClock.1 r hr t2 hl) hMono,
    fun p hp => le_trans (hClock.2 p hp) hMono⟩

theorem preserve_unchanged (tbl : ChatTable) (g : TransLog) (c t : Int)
    (hInv : humanModeInv tbl g = true)
    (hClock : clockBound tbl g c = true) (hMono : c ≤ t) :
    humanModeInv tbl g = true ∧ clockBound tbl g t = true :=
  ⟨hInv, clockBound_weaken tbl g c t hClock hMono⟩

theorem preserve_revert (header : Option String) (secret : String)
    (t : Int) (tbl : ChatTable) (g : TransLog) (c : Int)
    (hInv : humanModeInv tbl g = true)
    (hClock : clockBound tbl g c = true) (hMono : c ≤ t) :
    humanModeInv (revert_inactive_chats_to_ai header secret t tbl).2 g = true ∧
    clockBound (revert_inactive_chats_to_ai header secret t tbl).2 g t = true := by
  rw [humanModeInv_iff] at hInv
  rw [clockBound_iff] at hClock
  constructor
  · rw [humanModeInv_iff]
    intro r2 hr2 hm2
    rcases mem_revert_cases header secret t tbl r2 hr2 with hmem | ⟨r, hrmem, heq⟩
    · exact hInv r2 hmem hm2
    · have : r2.mode = some "ai" := by rw [heq]
      rw [this] at hm2
      exact absurd (Option.some.inj hm2) (by decide)
  · rw [clockBound_iff]
    refine ⟨fun r2 hr2 t2 hl2 => ?_, fun p hp => le_trans (hClock.2 p hp) hMono⟩
    rcases mem_revert_cases header secret t tbl r2 hr2 with hmem | ⟨r, hrmem, heq⟩
    · exact le_trans (hClock.1 r2 hmem t2 hl2) hMono
    · have hsame : r2.last_human_reply_at = r.last_human_reply_at := by rw [heq]
      rw [hsame] at hl2
      exact le_trans (hClock.1 r hrmem t2 hl2) hMono

theorem preserve_upsert_human (u : String) (t : Int) (tbl : ChatTable)
    (g g2 : TransLog) (c : Int)
    (hInv : humanModeInv tbl g = true)
    (hClock : clockBound tbl g c = true) (hMono : c ≤ t)
    (hgu : ∃ t0, glookup g2 u = some t0 ∧ t0 ≤ t)
    (hgne : ∀ u2, u2 ≠ u → glookup g2 u2 = glookup g u2)
    (hgall : ∀ p ∈ g2, p.2 ≤ t) :
    humanModeInv (upsert tbl u "human" (some t)) g2 = true ∧
    clockBound (upsert tbl u "human" (some t)) g2 t = true := by
  rw [humanModeInv_iff] at hInv
  rw [clockBound_iff] at hClock
  rcases hgu with ⟨t0, hg2u, ht0⟩
  constructor
  · rw [humanModeInv_iff]
    intro r2 hr2 hm2
    rcases mem_upsert_cases tbl u "human" (some t) r2 hr2 with
      ⟨r, hrmem, hne, heq⟩ | ⟨r, hrmem, huid, heq⟩ | ⟨heq, hall⟩
    · subst heq
      rcases hInv r2 hrmem hm2 with ⟨t1, t1t, hl1, hg1, hle1⟩
      exact ⟨t1, t1t, hl1, by rw [hgne r2.user_id hne]; exact hg1, hle1⟩
    · have huid2 : r2.user_id = u := by rw [heq]; exact huid
      have hl2 : r2.last_human_reply_at = some t := by rw [heq]; rfl
      exact ⟨t, t0, hl2, by rw [huid2]; exact hg2u, ht0⟩
    · have huid2 : r2.user_id = u := by rw [heq]
      have hl2 : r2.last_human_reply_at = some t := by rw [heq]
      exact ⟨t, t0, hl2, by rw [huid2]; exact hg2u, ht0⟩
  · rw [clockBound_iff]
    refine ⟨fun r2 hr2 t2 hl2 => ?_, hgall⟩
    rcases mem_upsert_cases tbl u "human" (some t) r2 hr2 with
      ⟨r, hrmem, hne, heq⟩ | ⟨r, hrmem, huid, heq⟩ | ⟨heq, hall⟩
    · subst heq
      exact le_trans (hClock.1 r2 hrmem t2 hl2) hMono
    · have hl : r2.last_human_reply_at = some t := by rw [heq]; rfl
      rw [hl] at hl2
      cases hl2
      exact le_refl t
    · have hl : r2.last_human_reply_at = some t := by rw [heq]
      rw [hl] at hl2
      cases hl2
      exact le_refl t

theorem preserve_upsert_nonhuman (u m : String) (tbl : ChatTable)
    (g : TransLog) (c t : Int) (hm : m ≠ "human")
    (hInv : humanModeInv tbl g = true)
    (hClock : clockBound tbl g c = true) (hMono : c ≤ t) :
    humanModeInv (upsert tbl u m none) g = true ∧
    clockBound (upsert tbl u m none) g t = true := by
  rw [humanModeInv_iff] at hInv
  rw [clockBound_iff] at hClock
  constructor
  · rw [humanModeInv_iff]
    intro r2 hr2 hm2
    rcases mem_upsert_cases tbl u m none r2 hr2 with
      ⟨r, hrmem, hne, heq⟩ | ⟨r, hrmem, huid, heq⟩ | ⟨heq, hall⟩
    · subst heq
      exact hInv r2 hrmem hm2
    · have : r2.mode = some m := by rw [heq]
      rw [this] at hm2
      exact absurd (Option.some.inj hm2) hm
    · have : r2.mode = some m := by rw [heq]
      rw [this] at hm2
      exact absurd (Option.some.inj hm2) hm
  · rw [clockBound_iff]
    refine ⟨fun r2 hr2 t2 hl2 => ?_,
      fun p hp => le_trans (hClock.2 p hp) hMono⟩
    rcases mem_upsert_cases tbl u m none r2 hr2 with
      ⟨r, hrmem, hne, heq⟩ | ⟨r, hrmem, huid, heq⟩ | ⟨heq, hall⟩
    · subst heq
      exact le_trans (hClock.1 r2 hrmem t2 hl2) hMono
    · have hl : r2.last_human_reply_at = r.last_human_reply_at := by
        rw [heq]
        rfl
      rw [hl] at hl2
      exact le_trans (hClock.1 r hrmem t2 hl2) hMono
    · have hl : r2.last_human_reply_at = none := by rw [heq]
      rw [hl] at hl2
      cases hl2

theorem preserve_switch (header : Option String) (secret : String)
    (body : Option SwitchBody) (t : Int) (tbl : ChatTable) (g : TransLog)
    (c : Int)
    (hInv : humanModeInv tbl g = true)
    (hClock : clockBound tbl g c = true) (hMono : c ≤ t) :
    humanModeInv (switch_chat_mode header secret body t tbl).2
        (logTransition secret (.switchOp header body t) tbl g) = true ∧
    clockBound (switch_chat_mode header secret body t tbl).2
        (logTransition secret (.switchOp header body t) tbl g) t = true := by
  rcases body with _ | ⟨bu, bm⟩
  · have hsnd : (switch_chat_mode header secret none t tbl).2 = tbl := by
      unfold switch_chat_mode
      cases get_admin_key header secret <;> rfl
    have hlog : logTransition secret (.switchOp header none t) tbl g = g := rfl
    rw [hsnd, hlog]
    exact preserve_unchanged tbl g c t hInv hClock hMono
  · rcases bu with _ | u
    · have hsnd :
          (switch_chat_mode header secret (some ⟨none, bm⟩) t tbl).2 = tbl := by
        unfold switch_chat_mode
        cases get_admin_key header secret
        · rfl
        · cases bm <;> rfl
      have hlog : logTransition secret
          (.switchOp header (some ⟨none, bm⟩) t) tbl g = g := by
        unfold logTransition
        cases bm <;> rfl
      rw [hsnd, hlog]
      exact preserve_unchanged tbl g c t hInv hClock hMono
    · rcases bm with _ | m
      · have hsnd :
            (switch_chat_mode header secret (some ⟨some u, none⟩) t tbl).2 =
              tbl := by
          unfold switch_chat_mode
          cases get_admin_key header secret <;> rfl
        have hlog : logTransition secret
            (.switchOp header (some ⟨some u, none⟩) t) tbl g = g := rfl
        rw [hsnd, hlog]
        exact preserve_unchanged tbl g c t hInv hClock hMono
      · by_cases hh : header = some secret
        · by_cases hval : u = "" ∨ (m ≠ "ai" ∧ m ≠ "human")
          · have hsnd :
                (switch_chat_mode header secret (some ⟨some u, some m⟩) t
                  tbl).2 = tbl := by
              unfold switch_chat_mode get_admin_key
              rw [if_pos hh]
              dsimp only
              rw [if_pos hval]
            have hlog : logTransition secret
                (.switchOp header (some ⟨some u, some m⟩) t) tbl g = g := by
              unfold logTransition
              dsimp only
              rw [if_neg ?_]
              rintro ⟨_, hu2, hm2, _⟩
              rcases hval with h1 | ⟨_, h3⟩
              · exact hu2 h1
              · exact h3 hm2
            rw [hsnd, hlog]
            exact preserve_unchanged tbl g c t hInv hClock hMono
          · have hu : u ≠ "" := fun he => hval (Or.inl he)
            have hsnd :
                (switch_chat_mode header secret (some ⟨some u, some m⟩) t
                  tbl).2 =
                  upsert tbl u m (if m = "human" then some t else none) := by
              unfold switch_chat_mode get_admin_key
              rw [if_pos hh]
              dsimp only
              rw [if_neg hval]
            by_cases hm : m = "human"
            · subst hm
              rw [if_pos rfl] at hsnd
              by_cases htr : currentMode tbl u = some "human"
              · have hlog : logTransition secret
                    (.switchOp header (some ⟨some u, some "human"⟩) t) tbl
                      g = g := by
                  unfold logTransition
                  dsimp only
                  rw [if_neg (fun hcond => hcond.2.2.2 htr)]
                rw [hsnd, hlog]
                rcases currentMode_human_mem tbl u htr with
                  ⟨r0, hr0, hr0u, hr0m⟩
                have hIp := (humanModeInv_iff tbl g).1 hInv
                rcases hIp r0 hr0 hr0m with ⟨t1, t0, hl0, hg0, hle0⟩
                have hCp := (clockBound_iff tbl g c).1 hClock
                refine preserve_upsert_human u t tbl g g c hInv hClock hMono
                  ⟨t0, ?_, ?_⟩ (fun u2 _ => rfl)
                  (fun p hp => le_trans (hCp.2 p hp) hMono)
                · rw [hr0u] at hg0
                  exact hg0
                · exact le_trans
                    (hCp.2 _ (glookup_mem g r0.user_id t0 hg0)) hMono
              · have hlog : logTransition secret
                    (.switchOp header (some ⟨some u, some "human"⟩) t) tbl
                      g = (u, t) :: g := by
                  unfold logTransition
                  dsimp only
                  rw [if_pos ⟨hh, hu, rfl, htr⟩]
                rw [hsnd, hlog]
                have hCp := (clockBound_iff tbl g c).1 hClock
                refine preserve_upsert_human u t tbl g ((u, t) :: g) c hInv
                  hClock hMono ⟨t, glookup_cons_self g u t, le_refl t⟩
                  (fun u2 hne => glookup_cons_ne g u u2 t hne) ?_
                intro p hp
                rcases List.mem_cons.1 hp with rfl | hp2
                · exact le_refl t
                · exact le_trans (hCp.2 p hp2) hMono
            · have hlog : logTransition secret
                  (.switchOp header (some ⟨some u, some m⟩) t) tbl g = g := by
                unfold logTransition
                dsimp only
                rw [if_neg (fun hcond => hm hcond.2.2.1)]
              rw [if_neg hm] at hsnd
              rw [hsnd, hlog]
              exact preserve_upsert_nonhuman u m tbl g c t hm hInv hClock
                hMono
        · have hsnd :
              (switch_chat_mode header secret (some ⟨some u, some m⟩) t
                tbl).2 = tbl := by
            unfold switch_chat_mode get_admin_key
            rw [if_neg hh]
          have hlog : logTransition secret
              (.switchOp header (some ⟨some u, some m⟩) t) tbl g = g := by
            unfold logTransition
            dsimp only
            rw [if_neg (fun hcond => hh hcond.1)]
          rw [hsnd, hlog]
          exact preserve_unchanged tbl g c t hInv hClock hMono

/-- Claim C7: every operation that writes the ChatState table — an
`/admin/switch_mode` request or an `/admin/revert_to_ai` sweep — preserves
the invariant that a row in human mode carries a `last_human_reply_at` at
or after the time logged for its transition into human mode, provided the
operation runs at or after every timestamp already recorded (the clock is
monotone). -/
theorem chat_state_human_invariant_preserved (secret : String)
    (op : AdminOp) (tbl : ChatTable) (g : TransLog) (c : Int)
    (hInv : humanModeInv tbl g = true)
    (hClock : clockBound tbl g c = true)
    (hMono : c ≤ opTime op) :
    humanModeInv (applyAdminOp secret op tbl)
        (logTransition secret op tbl g) = true ∧
    clockBound (applyAdminOp secret op tbl)
        (logTransition secret op tbl g) (opTime op) = true := by
  cases op with
  | switchOp header body t =>
    exact preserve_switch header secret body t tbl g c hInv hClock hMono
  | revertOp header t =>
    have hlog : logTransition secret (.revertOp header t) tbl g = g := rfl
    have happ : applyAdminOp secret (.revertOp header t) tbl =
        (revert_inactive_chats_to_ai header secret t tbl).2 := rfl
    rw [hlog, happ]
    exact preserve_revert header secret t tbl g c hInv hClock hMono

/-- Witness for C7: switching a fresh user to human mode at time 5 from
the empty table preserves the invariant. -/
theorem chat_state_human_invariant_preserved_witness :
    humanModeInv
        (applyAdminOp "secret"
          (.switchOp (some "secret") (some ⟨some "U1", some "human"⟩) 5) [])
        (logTransition "secret"
          (.switchOp (some "secret") (some ⟨some "U1", some "human"⟩) 5)
          [] []) = true ∧
    clockBound
        (applyAdminOp "secret"
          (.switchOp (some "secret") (some ⟨some "U1", some "human"⟩) 5) [])
        (logTransition "secret"
          (.switchOp (some "secret") (some ⟨some "U1", some "human"⟩) 5)
          [] [])
        (opTime (.switchOp (some "secret")
          (some ⟨some "U1", some "human"⟩) 5)) = true :=
  chat_state_human_invariant_preserved "secret"
    (.switchOp (some "secret") (some ⟨some "U1", some "human"⟩) 5) [] [] 0
    (by decide) (by decide) (by decide)
